import Mathlib

/-!
Verification development for the EvolvX React Native client.

Shallow embedding of:
* `contexts/AuthContext.js` (session restore on boot, `login`, `logout`,
  the axios request interceptor);
* `screens/main/HomeScreen.js` (`calcStreak`);
* `screens/main/WorkoutScreen.js` (the search-filter effect);
* `screens/main/CreateWorkoutScreen.js` (`calculateProgress`, both shipped
  variants of the screen).

Modelling conventions:
* `AsyncStorage` is a record holding the two keys the auth code uses;
  `getItem`/`multiGet` returning `null` is `Option.none`.
* JavaScript truthiness of a string value is `s ≠ ""` (the empty string is
  falsy, `null` is falsy).
* `JSON.parse` / `JSON.stringify` are parameters (`parse`, `stringify`);
  a `parse` result of `none` models a thrown `SyntaxError`.
* Timestamps are integers (milliseconds); `setHours(0,0,0,0)` is floor
  division by the length of a day, which identifies timestamps exactly when
  they fall on the same calendar day.
* `Array.prototype.sort` with a comparator is modelled by a stable sort in
  the comparator's order (`List.insertionSort`).
* Strings that are lower-cased or trimmed are modelled as `List Char` so
  that all operations compute; JavaScript numbers are modelled as exact
  rationals (`ℚ`): every constant that appears (0.25, 0.33, 0.34 and their
  partial sums, including 0.33 + 0.33 + 0.34 = 1) is produced exactly by
  IEEE-754 double arithmetic as well, so no rounding behaviour is lost for
  the values the claims mention.
-/

/-- JavaScript truthiness of a (non-null) string: nonempty. -/
def truthy (s : String) : Bool := !(s == "")

/-- JavaScript truthiness of a nullable string: `null` is falsy, a string is
truthy when nonempty. -/
def truthyOpt : Option String → Bool
  | some s => truthy s
  | none => false

/-- The in-memory user record built from the login/register payload:
`{ id: user_id, username, email }`. -/
structure User where
  id : Nat
  username : String
  email : String
deriving DecidableEq

/-- Durable storage (`AsyncStorage`) restricted to the two keys the auth
context reads and writes: `auth_token` and `user` (a JSON string). -/
structure Storage where
  auth_token : Option String
  user : Option String
deriving DecidableEq

/-- Outcome of the boot effect of `AuthProvider` (AuthContext.js):
the in-memory session fields after the effect settles, plus whether the
effect's promise rejected (`JSON.parse` threw; the `finally` still ran). -/
structure RestoreResult where
  token : Option String
  user : Option User
  loading : Bool
  threw : Bool
deriving DecidableEq

/-- The boot effect of `AuthProvider`: `multiGet(['auth_token','user'])`,
then `if (storedToken) setToken(storedToken); if (userJson) setUser(JSON.parse(userJson))`,
with `setLoading(false)` in `finally`. `parse` models `JSON.parse`
(`none` = throw, in which case `setUser` is never reached but the token
assignment has already happened). -/
def restore (st : Storage) (parse : String → Option User) : RestoreResult :=
  let tok : Option String :=
    match st.auth_token with
    | some t => if truthy t then some t else none
    | none => none
  match st.user with
  | some j =>
    if truthy j then
      match parse j with
      | some u => ⟨tok, some u, false, false⟩
      | none => ⟨tok, none, false, true⟩
    else ⟨tok, none, false, false⟩
  | none => ⟨tok, none, false, false⟩

/-- The state visible to the auth context and its callers: durable storage,
the axios instance's default `Authorization` header
(`api.defaults.headers.common.Authorization`), and the provider's React
state. -/
structure SysState where
  storage : Storage
  authHeader : Option String
  token : Option String
  user : Option User
  loading : Bool
  error : String
deriving DecidableEq

/-- `logout` from AuthContext.js. `removeFails` says whether
`AsyncStorage.multiRemove(['auth_token','user'])` rejects. The function body
has `try { … } finally { setLoading(false) }` and no `catch`, so on a
storage failure the rejection propagates to the caller and none of the
statements after `multiRemove` run (storage is modelled as unchanged by the
failed removal). Returns the resulting state and whether the call rejected. -/
def logout (removeFails : Bool) (s : SysState) : SysState × Bool :=
  if removeFails then
    ({ s with loading := false }, true)
  else
    ({ storage := ⟨none, none⟩, authHeader := none, token := none,
       user := none, loading := false, error := s.error }, false)

/-- The server's response to `POST /auth/login`:
either `{access_token, user_id, username}` or a failure whose
`e.response?.data?.error` is the carried option (`none` when the error
payload has no `error` field). -/
inductive ServerResp where
  | ok (access_token : String) (user_id : Nat) (username : String)
  | err (errorMsg : Option String)
deriving DecidableEq

/-- One observable step of `login`, in program order. -/
inductive Ev where
  | clearErr
  | setLoading (b : Bool)
  | persist (tok : String) (userJson : String)
  | setHeader (v : String)
  | setTok (t : Option String)
  | setUsr (u : Option User)
  | setErr (m : String)
  | resolve (success : Bool)
deriving DecidableEq

/-- The sequence of effects `login(email, password)` performs, in the order
the statements appear in AuthContext.js. On success: `multiSet` persists the
token and the stringified user, then the default header is set, then React
state, then the `finally`, then the promise resolves `{success: true}`. On
failure only `error` state is touched before the `finally`. -/
def loginEvents (stringify : User → String) (email : String)
    (resp : ServerResp) : List Ev :=
  Ev.clearErr :: Ev.setLoading true ::
  (match resp with
   | .ok t uid uname =>
      [Ev.persist t (stringify ⟨uid, uname, email⟩),
       Ev.setHeader ("Bearer " ++ t),
       Ev.setTok (some t),
       Ev.setUsr (some ⟨uid, uname, email⟩),
       Ev.setLoading false,
       Ev.resolve true]
   | .err m =>
      [Ev.setErr (m.getD "Login failed"),
       Ev.setLoading false,
       Ev.resolve false])

/-- Effect of one `login` step on the system state. -/
def applyEv (s : SysState) (e : Ev) : SysState :=
  match e with
  | .clearErr => { s with error := "" }
  | .setLoading b => { s with loading := b }
  | .persist t j => { s with storage := ⟨some t, some j⟩ }
  | .setHeader v => { s with authHeader := some v }
  | .setTok t => { s with token := t }
  | .setUsr u => { s with user := u }
  | .setErr m => { s with error := m }
  | .resolve _ => s

/-- The value `login` returns: `{success: true}` or
`{success: false, error: msg}` with `msg = e.response?.data?.error || 'Login failed'`. -/
structure LoginResult where
  success : Bool
  error : Option String
deriving DecidableEq

/-- `login(email, password)` from AuthContext.js, as final state plus
returned result: the state is the fold of the event trace. -/
def login (stringify : User → String) (email : String) (resp : ServerResp)
    (s : SysState) : SysState × LoginResult :=
  ((loginEvents stringify email resp).foldl applyEv s,
   match resp with
   | .ok _ _ _ => ⟨true, none⟩
   | .err m => ⟨false, some (m.getD "Login failed")⟩)

/-- An outgoing request's mutable config, restricted to the header the
interceptor touches. -/
structure ReqConfig where
  authorization : Option String
deriving DecidableEq

/-- The `api.interceptors.request` handler: reads `auth_token` from durable
storage and, when the stored value is truthy, overwrites the request's
`Authorization` header with `Bearer <stored>`. -/
def requestInterceptor (st : Storage) (config : ReqConfig) : ReqConfig :=
  match st.auth_token with
  | some t => if truthy t then { config with authorization := some ("Bearer " ++ t) } else config
  | none => config

/-- Milliseconds in one day. -/
def msPerDay : Int := 86400000

/-- A workout entry as read by `calcStreak` (HomeScreen.js): only
`workout_date` is consulted; it is the entry's timestamp in milliseconds. -/
structure HWorkout where
  workout_date : Int
deriving DecidableEq

/-- `d.setHours(0,0,0,0)` followed by `getTime()` comparison: two timestamps
have equal midnights exactly when they lie in the same calendar day, i.e.
when flooring to whole days agrees. -/
def dayOf (t : Int) : Int := Int.fdiv t msPerDay

/-- The comparator `(a,b) => new Date(b.workout_date) - new Date(a.workout_date)`:
`a` sorts before `b` when `b`'s timestamp is at most `a`'s (descending). -/
def descByDate (a b : HWorkout) : Prop := b.workout_date ≤ a.workout_date

instance : DecidableRel descByDate := fun a b => Int.decLe b.workout_date a.workout_date

/-- The `for (const w of sorted)` loop of `calcStreak`: for each entry, if
its day equals the cursor, increment the count and move the cursor back one
day. -/
def streakLoop : List HWorkout → Int → Nat → Nat
  | [], _, days => days
  | w :: rest, cursor, days =>
    if dayOf w.workout_date = cursor then streakLoop rest (cursor - 1) (days + 1)
    else streakLoop rest cursor days

/-- `calcStreak` from HomeScreen.js, with "today" (as a day number) made an
explicit parameter. Empty list: 0. Otherwise sort descending by raw date,
bump the count and move the cursor to yesterday when the most recent entry
falls on today, then run the loop over the whole sorted list. The `[]` match
arm is unreachable (sorting preserves length). -/
def calcStreak (today : Int) (list : List HWorkout) : Nat :=
  if list.isEmpty then 0
  else
    match List.insertionSort descByDate list with
    | [] => 0
    | first :: rest =>
      if dayOf first.workout_date = today then
        streakLoop (first :: rest) (today - 1) 1
      else
        streakLoop (first :: rest) today 0

/-- A JavaScript string, as a list of characters, for the operations that
must compute (`toLowerCase`, `trim`, `includes`). -/
abbrev JStr := List Char

/-- `String.prototype.toLowerCase`. -/
def jsToLower (s : JStr) : JStr := s.map Char.toLower

/-- `String.prototype.includes(sub)`: substring containment. -/
def jsIncludes (s sub : JStr) : Bool := s.tails.any fun t => sub.isPrefixOf t

/-- `String.prototype.trim`: strip whitespace from both ends. -/
def jsTrim (s : JStr) : JStr :=
  ((s.dropWhile Char.isWhitespace).reverse.dropWhile Char.isWhitespace).reverse

/-- A workout as read by the WorkoutScreen.js filter effect: the name, the
raw date value, and the exercises' names. -/
structure WWorkout where
  workout_name : JStr
  workout_date : JStr
  exercises : List JStr
deriving DecidableEq

/-- The filter predicate applied to one workout, with `query` already
lower-cased (as in the code). `fmt` models
`d => new Date(d).toLocaleDateString()`; note the code does not lower-case
the formatted date. -/
def matchesQuery (fmt : JStr → JStr) (query : JStr) (w : WWorkout) : Bool :=
  jsIncludes (jsToLower w.workout_name) query
  || jsIncludes (fmt w.workout_date) query
  || w.exercises.any fun ex => jsIncludes (jsToLower ex) query

/-- The filter effect of WorkoutScreen.js: if the search query trims to the
empty string the full list is kept, otherwise the list is filtered by
`matchesQuery` with the lower-cased (untrimmed) query. -/
def filterWorkouts (fmt : JStr → JStr) (searchQuery : JStr)
    (workouts : List WWorkout) : List WWorkout :=
  if jsTrim searchQuery = [] then workouts
  else workouts.filter (matchesQuery fmt (jsToLower searchQuery))

namespace CreateWorkoutA

/-- One set row of the four-condition CreateWorkoutScreen variant: `weight`
and `reps` are text-input strings. -/
structure SetEntry where
  weight : String
  reps : String
deriving DecidableEq

/-- An exercise as read by `calculateProgress`: only its `sets` matter. -/
structure Exercise where
  sets : List SetEntry
deriving DecidableEq

/-- The fourth condition: `exercises.some(e => e.sets.some(s => s.weight && s.reps))`. -/
def hasLoggedSet (exercises : List Exercise) : Bool :=
  exercises.any fun e => e.sets.any fun s => truthy s.weight && truthy s.reps

/-- `calculateProgress` of the four-condition CreateWorkoutScreen variant
(0.25 per condition); JavaScript numbers modelled as exact rationals. -/
def calculateProgress (workoutName : String) (selectedTemplate : Option String)
    (exercises : List Exercise) : ℚ :=
  let p : ℚ := 0
  let p := if truthy workoutName then p + 25/100 else p
  let p := if truthyOpt selectedTemplate then p + 25/100 else p
  let p := if 0 < exercises.length then p + 25/100 else p
  let p := if hasLoggedSet exercises then p + 25/100 else p
  p

end CreateWorkoutA

namespace CreateWorkoutB

/-- One set row of the three-condition CreateWorkoutScreen variant. -/
structure SetEntry where
  weight : String
  reps : String
deriving DecidableEq

/-- An exercise of the three-condition variant; `calculateProgress` only
tests `exercises.length > 0`. -/
structure Exercise where
  sets : List SetEntry
deriving DecidableEq

/-- `calculateProgress` of the three-condition CreateWorkoutScreen variant
(0.33 + 0.33 + 0.34); JavaScript numbers modelled as exact rationals (the
doubles 0.33, 0.34 and their partial sums round to exactly these values,
and 0.33 + 0.33 + 0.34 is exactly 1.0 in double arithmetic as well). -/
def calculateProgress (workoutName : String) (selectedTemplate : Option String)
    (exercises : List Exercise) : ℚ :=
  let p : ℚ := 0
  let p := if truthy workoutName then p + 33/100 else p
  let p := if truthyOpt selectedTemplate then p + 33/100 else p
  let p := if 0 < exercises.length then p + 34/100 else p
  p

end CreateWorkoutB

/-- C1 counterexample: at startup storage holding a token under `auth_token`
but nothing under `user`, the boot effect restores the token alone — the
in-memory session ends up with `token` set and `user` absent, so "token and
user are either both set or both absent" fails after restore. -/
theorem restore_mismatch_cex :
    ¬ (((restore ⟨some "t", none⟩ fun _ => none).token.isSome = true) ↔
       ((restore ⟨some "t", none⟩ fun _ => none).user.isSome = true)) := by
  decide

/-- C1 (amended): the boot effect restores each half of the session
independently: after it settles, `token` is set exactly when storage holds a
nonempty `auth_token`, and `user` is set exactly when storage holds a
nonempty `user` entry that parses; a mismatched stored pair therefore yields
a partial in-memory session, not an empty one. -/
theorem restore_independent (st : Storage) (parse : String → Option User) :
    ((restore st parse).token.isSome ↔ ∃ t, st.auth_token = some t ∧ t ≠ "")
    ∧ ((restore st parse).user.isSome ↔
        ∃ j u, st.user = some j ∧ j ≠ "" ∧ parse j = some u) := by
  obtain ⟨tok?, usr?⟩ := st
  constructor
  · cases tok? with
    | none =>
      cases usr? with
      | none => simp [restore]
      | some j =>
        by_cases hj : j = "" <;> cases hp : parse j <;>
          simp [restore, truthy, hj, hp]
    | some t =>
      by_cases ht : t = ""
      · cases usr? with
        | none => simp [restore, truthy, ht]
        | some j =>
          by_cases hj : j = "" <;> cases hp : parse j <;>
            simp [restore, truthy, ht, hj, hp]
      · cases usr? with
        | none => simp [restore, truthy, ht]
        | some j =>
          by_cases hj : j = "" <;> cases hp : parse j <;>
            simp [restore, truthy, ht, hj, hp]
  · cases usr? with
    | none => cases tok? <;> simp [restore]
    | some j =>
      by_cases hj : j = ""
      · cases tok? <;> simp [restore, truthy, hj]
      · cases hp : parse j <;> cases tok? <;>
          simp [restore, truthy, hj, hp]

/-- C2 counterexample: with a live session and a failing
`AsyncStorage.multiRemove`, `logout` rejects to its caller (there is no
`catch` that logs and swallows the error) and the in-memory token is still
set afterwards — contradicting "never fails to its caller" and "empties the
in-memory session even when the storage-removal step fails". -/
theorem logout_fail_cex :
    ¬ (((logout true ⟨⟨some "t", some "u"⟩, some "Bearer t", some "t",
          some ⟨1, "u", "e"⟩, false, ""⟩).2 = false)
       ∧ (logout true ⟨⟨some "t", some "u"⟩, some "Bearer t", some "t",
          some ⟨1, "u", "e"⟩, false, ""⟩).1.token = none) := by
  decide

/-- C2 (amended): when `AsyncStorage.multiRemove` succeeds, `logout` leaves
durable storage empty for both keys, removes the default authorization
header, and empties the in-memory session, returning normally; but when the
removal fails, the rejection propagates to the caller and the header and
in-memory session are left unchanged (there is no catch-log-and-swallow). -/
theorem logout_behavior (s : SysState) :
    ((logout false s).1.storage = ⟨none, none⟩
      ∧ (logout false s).1.authHeader = none
      ∧ (logout false s).1.token = none
      ∧ (logout false s).1.user = none
      ∧ (logout false s).2 = false)
    ∧ ((logout true s).2 = true
      ∧ (logout true s).1.storage = s.storage
      ∧ (logout true s).1.authHeader = s.authHeader
      ∧ (logout true s).1.token = s.token
      ∧ (logout true s).1.user = s.user) := by
  simp [logout]

/-- C4: when the server rejects the credentials, `login` returns
`{success: false, error: msg}` where `msg` is the server payload's `error`
field, falling back to `'Login failed'` when that field is absent; durable
storage, the default authorization header, and the in-memory session are
unchanged from before the call, whatever the prior state was. In
particular, for a body `{error: "Invalid credentials"}` the result is
`{success: false, error: "Invalid credentials"}`. -/
theorem login_failure_atomic (stringify : User → String) (email : String)
    (m : Option String) (s : SysState) :
    (login stringify email (.err m) s).2 = ⟨false, some (m.getD "Login failed")⟩
    ∧ (login stringify email (.err m) s).1.storage = s.storage
    ∧ (login stringify email (.err m) s).1.authHeader = s.authHeader
    ∧ (login stringify email (.err m) s).1.token = s.token
    ∧ (login stringify email (.err m) s).1.user = s.user := by
  simp [login, loginEvents, applyEv]

/-- C5: when the server returns a token and identity fields, `login` returns
`{success: true}`, durable storage afterwards holds the new token and the
stringified user record, the shared client's default authorization header is
`Bearer <token>`, the in-memory session holds the token and user, and in the
trace of effects the persistence write occurs strictly before success is
resolved to the caller. -/
theorem login_success_post (stringify : User → String) (email t : String)
    (uid : Nat) (uname : String) (s : SysState) :
    (login stringify email (.ok t uid uname) s).2 = ⟨true, none⟩
    ∧ (login stringify email (.ok t uid uname) s).1.storage =
        ⟨some t, some (stringify ⟨uid, uname, email⟩)⟩
    ∧ (login stringify email (.ok t uid uname) s).1.authHeader =
        some ("Bearer " ++ t)
    ∧ (login stringify email (.ok t uid uname) s).1.token = some t
    ∧ (login stringify email (.ok t uid uname) s).1.user =
        some ⟨uid, uname, email⟩
    ∧ ∃ i j : Nat, i < j
        ∧ (loginEvents stringify email (.ok t uid uname))[i]? =
            some (Ev.persist t (stringify ⟨uid, uname, email⟩))
        ∧ (loginEvents stringify email (.ok t uid uname))[j]? =
            some (Ev.resolve true) := by
  refine ⟨rfl, ?_, ?_, ?_, ?_, 2, 7, by omega, rfl, rfl⟩ <;>
    simp [login, loginEvents, applyEv]

/-- C9: the request interceptor reads the token fresh from durable storage:
whatever authorization value the config carried before (in particular a
stale cached default header), when storage holds a nonempty `auth_token`
the outgoing request's `Authorization` header is `Bearer <stored token>`. -/
theorem request_decoration (st : Storage) (c : ReqConfig) (t : String)
    (h1 : st.auth_token = some t) (h2 : t ≠ "") :
    (requestInterceptor st c).authorization = some ("Bearer " ++ t) := by
  simp only [requestInterceptor, h1]
  simp [truthy, h2]

/-- C9 witness: a stale cached header `Bearer stale` is overwritten with the
stored token. -/
theorem request_decoration_w :
    (requestInterceptor ⟨some "tok", none⟩
      ⟨some ("Bearer " ++ "stale")⟩).authorization = some ("Bearer " ++ "tok") :=
  request_decoration ⟨some "tok", none⟩ ⟨some ("Bearer " ++ "stale")⟩ "tok"
    rfl (by decide)

/-- The loop counts at most one day per entry it scans. -/
theorem streakLoop_le (l : List HWorkout) :
    ∀ (c : Int) (d : Nat), streakLoop l c d ≤ d + l.length := by
  induction l with
  | nil => intro c d; simp [streakLoop]
  | cons w rest ih =>
    intro c d
    simp only [streakLoop, List.length_cons]
    by_cases h : dayOf w.workout_date = c
    · rw [if_pos h]
      have := ih (c - 1) (d + 1)
      omega
    · rw [if_neg h]
      have := ih c d
      omega

/-- If no scanned entry ever falls on the cursor's day, the loop leaves the
count unchanged (the cursor never moves). -/
theorem streakLoop_no_match (l : List HWorkout) :
    ∀ (c : Int) (d : Nat), (∀ w ∈ l, dayOf w.workout_date ≠ c) →
      streakLoop l c d = d := by
  induction l with
  | nil => intro c d _; rfl
  | cons w rest ih =>
    intro c d h
    have hw : dayOf w.workout_date ≠ c := h w (by simp)
    simp only [streakLoop, if_neg hw]
    exact ih c d fun x hx => h x (by simp [hx])

/-- C3 counterexample: a single workout dated exactly yesterday (one day
before today, day 10), and no entry today: the most recent entry is exactly
one day back, yet `calcStreak` returns 0, not a streak counted from
yesterday — the cursor starts at today and never matches, so the
"yesterday" start the claim describes does not happen, and the result is
zero even though the most recent entry is not older than yesterday. -/
theorem calcStreak_yesterday_cex :
    dayOf (9 * msPerDay) = 10 - 1 ∧ calcStreak 10 [⟨9 * msPerDay⟩] = 0 := by
  decide

/-- C3 (amended): the streak only ever starts counting from today: whenever
no entry falls on today's calendar day — in particular when the most recent
entry is exactly yesterday — `calcStreak` returns 0. -/
theorem calcStreak_no_today (today : Int) (list : List HWorkout)
    (h : ∀ w ∈ list, dayOf w.workout_date ≠ today) :
    calcStreak today list = 0 := by
  have hmem : ∀ w ∈ List.insertionSort descByDate list,
      dayOf w.workout_date ≠ today :=
    fun w hw => h w ((List.mem_insertionSort descByDate).mp hw)
  unfold calcStreak
  by_cases he : list.isEmpty
  · rw [if_pos he]
  · rw [if_neg he]
    rcases hs : List.insertionSort descByDate list with _ | ⟨first, rest⟩
    · rfl
    · have hf : dayOf first.workout_date ≠ today := by
        apply hmem
        rw [hs]
        simp
      show (if dayOf first.workout_date = today then
          streakLoop (first :: rest) (today - 1) 1
        else streakLoop (first :: rest) today 0) = 0
      rw [if_neg hf]
      apply streakLoop_no_match
      intro w hw
      apply hmem
      rw [hs]
      exact hw

/-- C3 amended-claim witness at a concrete input: one entry three days ago,
today is day 5, streak 0. -/
theorem calcStreak_no_today_w : calcStreak 5 [⟨3 * msPerDay⟩] = 0 :=
  calcStreak_no_today 5 [⟨3 * msPerDay⟩] (by decide)

/-- C6: concrete streak values (today is day 10; entries hold midnight
timestamps of the named days): empty list 0; one entry today 1; entries
today, yesterday and the day before 3; entries today and two days ago (gap
at yesterday) 1. -/
theorem calcStreak_values :
    calcStreak 10 [] = 0
    ∧ calcStreak 10 [⟨10 * msPerDay⟩] = 1
    ∧ calcStreak 10 [⟨10 * msPerDay⟩, ⟨9 * msPerDay⟩, ⟨8 * msPerDay⟩] = 3
    ∧ calcStreak 10 [⟨10 * msPerDay⟩, ⟨8 * msPerDay⟩] = 1 := by
  refine ⟨rfl, ?_, ?_, ?_⟩ <;> decide

/-- C10: for every today and workout list the streak is at most the number
of entries (each entry increments the count at most once; when the initial
today-check fires, the first sorted entry cannot also match the moved
cursor, so it is never double-counted). The count is a `Nat`, hence ≥ 0. -/
theorem calcStreak_le_length (today : Int) (list : List HWorkout) :
    calcStreak today list ≤ list.length := by
  unfold calcStreak
  by_cases he : list.isEmpty
  · rw [if_pos he]
    exact Nat.zero_le _
  · rw [if_neg he]
    rcases hs : List.insertionSort descByDate list with _ | ⟨first, rest⟩
    · exact Nat.zero_le _
    · have hlen : rest.length + 1 = list.length := by
        have hl := List.length_insertionSort descByDate list
        rw [hs] at hl
        simpa using hl
      show (if dayOf first.workout_date = today then
          streakLoop (first :: rest) (today - 1) 1
        else streakLoop (first :: rest) today 0) ≤ list.length
      by_cases hf : dayOf first.workout_date = today
      · rw [if_pos hf]
        have hne : ¬ dayOf first.workout_date = today - 1 := by omega
        simp only [streakLoop, if_neg hne]
        have := streakLoop_le rest (today - 1) 1
        omega
      · rw [if_neg hf]
        have := streakLoop_le (first :: rest) today 0
        simp only [List.length_cons] at this
        omega

/-- C7 counterexample: the query `" "` is non-empty, yet because it trims to
the empty string the effect returns the full list, retaining a workout that
contains the query in none of its searchable fields — so "every item
retained by the filter contains the query" fails for this non-empty query. -/
theorem filter_blank_cex :
    ([' '] : JStr) ≠ []
    ∧ (⟨['x'], ['1'], []⟩ : WWorkout) ∈
        filterWorkouts (fun d => d) [' '] [⟨['x'], ['1'], []⟩]
    ∧ matchesQuery (fun d => d) (jsToLower [' ']) ⟨['x'], ['1'], []⟩ = false := by
  decide

/-- C7 (amended): a query that trims to the empty string (empty or
all-whitespace) returns the full list unchanged; the filtered result is
always a sublist of the input (input order preserved); and for a query that
is nonempty after trimming, every retained item matches the lower-cased
query in at least one searchable field (name, formatted date, or a nested
exercise name). -/
theorem filter_spec (fmt : JStr → JStr) (sq : JStr) (ws : List WWorkout) :
    (jsTrim sq = [] → filterWorkouts fmt sq ws = ws)
    ∧ (filterWorkouts fmt sq ws).Sublist ws
    ∧ ∀ w ∈ filterWorkouts fmt sq ws, jsTrim sq ≠ [] →
        matchesQuery fmt (jsToLower sq) w = true := by
  by_cases hq : jsTrim sq = []
  · refine ⟨fun _ => ?_, ?_, ?_⟩
    · simp [filterWorkouts, hq]
    · simp only [filterWorkouts, if_pos hq]
      exact List.Sublist.refl ws
    · intro w _ hne
      exact absurd hq hne
  · refine ⟨fun h => absurd h hq, ?_, ?_⟩
    · simp only [filterWorkouts, if_neg hq]
      exact List.filter_sublist ws
    · intro w hw _
      simp only [filterWorkouts, if_neg hq] at hw
      exact (List.mem_filter.mp hw).2

/-- C7 amended-claim witness: query `"X"` retains the workout named `"x"`,
which therefore matches the lower-cased query. -/
theorem filter_spec_w :
    matchesQuery (fun d => d) (jsToLower ['X']) ⟨['x'], ['1'], []⟩ = true :=
  (filter_spec (fun d => d) ['X'] [⟨['x'], ['1'], []⟩]).2.2
    ⟨['x'], ['1'], []⟩ (by decide) (by decide)

/-- The four-condition `calculateProgress` is 0.25 times the number of
satisfied conditions (each condition contributes an equal 0.25 share). -/
theorem calculateProgressA_shares (nA : String) (tA : Option String)
    (exA : List CreateWorkoutA.Exercise) :
    CreateWorkoutA.calculateProgress nA tA exA =
      25/100 * ((if truthy nA then (1:ℚ) else 0)
        + (if truthyOpt tA then 1 else 0)
        + (if 0 < exA.length then 1 else 0)
        + (if CreateWorkoutA.hasLoggedSet exA then 1 else 0)) := by
  simp only [CreateWorkoutA.calculateProgress]
  split_ifs <;> norm_num

/-- The three-condition `calculateProgress` is the sum of fixed shares 0.33,
0.33 and 0.34 over the satisfied conditions. -/
theorem calculateProgressB_shares (nB : String) (tB : Option String)
    (exB : List CreateWorkoutB.Exercise) :
    CreateWorkoutB.calculateProgress nB tB exB =
      (if truthy nB then (33:ℚ)/100 else 0)
        + (if truthyOpt tB then 33/100 else 0)
        + (if 0 < exB.length then 34/100 else 0) := by
  simp only [CreateWorkoutB.calculateProgress]
  split_ifs <;> norm_num

/-- C8 counterexample: in the three-condition variant the shares are not
equal: satisfying only the exercises condition scores 0.34 while satisfying
only the name condition scores 0.33, so "each satisfied condition
contributes an equal fractional share" fails (an equal share of 3 would be
1/3 for each). -/
theorem progress_unequal_cex :
    CreateWorkoutB.calculateProgress "" none [⟨[]⟩] = 34/100
    ∧ CreateWorkoutB.calculateProgress "x" none [] = 33/100
    ∧ CreateWorkoutB.calculateProgress "" none [⟨[]⟩] ≠
        CreateWorkoutB.calculateProgress "x" none []
    ∧ CreateWorkoutB.calculateProgress "" none [⟨[]⟩] ≠ 1/3 := by
  have hx : truthy "x" = true := by decide
  have he : truthy "" = false := by decide
  refine ⟨?_, ?_, ?_, ?_⟩ <;>
    · simp only [calculateProgressB_shares, hx, he, truthyOpt]
      norm_num

/-- C8 (amended): both wizard variants score with fixed per-condition
shares — equal shares of 0.25 in the four-condition variant, and shares
0.33, 0.33, 0.34 in the three-condition variant; every score lies in
[0, 1]; no condition satisfied yields exactly 0; all conditions satisfied
yields exactly 1; and exactly one of the three conditions yields 0.33 or
0.34 (≈ 0.33). -/
theorem calculateProgress_props
    (nA : String) (tA : Option String) (exA : List CreateWorkoutA.Exercise)
    (nB : String) (tB : Option String) (exB : List CreateWorkoutB.Exercise) :
    (0 ≤ CreateWorkoutA.calculateProgress nA tA exA
      ∧ CreateWorkoutA.calculateProgress nA tA exA ≤ 1)
    ∧ (0 ≤ CreateWorkoutB.calculateProgress nB tB exB
      ∧ CreateWorkoutB.calculateProgress nB tB exB ≤ 1)
    ∧ CreateWorkoutA.calculateProgress nA tA exA =
        25/100 * ((if truthy nA then (1:ℚ) else 0)
          + (if truthyOpt tA then 1 else 0)
          + (if 0 < exA.length then 1 else 0)
          + (if CreateWorkoutA.hasLoggedSet exA then 1 else 0))
    ∧ CreateWorkoutB.calculateProgress nB tB exB =
        (if truthy nB then (33:ℚ)/100 else 0)
          + (if truthyOpt tB then 33/100 else 0)
          + (if 0 < exB.length then 34/100 else 0)
    ∧ (((if truthy nB then (1:ℕ) else 0) + (if truthyOpt tB then 1 else 0)
          + (if 0 < exB.length then 1 else 0)) = 1 →
        CreateWorkoutB.calculateProgress nB tB exB = 33/100
        ∨ CreateWorkoutB.calculateProgress nB tB exB = 34/100)
    ∧ (truthy nA = true → truthyOpt tA = true → 0 < exA.length →
        CreateWorkoutA.hasLoggedSet exA = true →
        CreateWorkoutA.calculateProgress nA tA exA = 1)
    ∧ (truthy nB = true → truthyOpt tB = true → 0 < exB.length →
        CreateWorkoutB.calculateProgress nB tB exB = 1)
    ∧ (truthy nA = false → truthyOpt tA = false → exA = [] →
        CreateWorkoutA.calculateProgress nA tA exA = 0)
    ∧ (truthy nB = false → truthyOpt tB = false → exB = [] →
        CreateWorkoutB.calculateProgress nB tB exB = 0) := by
  refine ⟨?_, ?_, calculateProgressA_shares nA tA exA,
    calculateProgressB_shares nB tB exB, ?_, ?_, ?_, ?_, ?_⟩
  · rw [calculateProgressA_shares]
    constructor <;> · split_ifs <;> norm_num
  · rw [calculateProgressB_shares]
    constructor <;> · split_ifs <;> norm_num
  · intro h
    rw [calculateProgressB_shares]
    rcases Bool.eq_false_or_eq_true (truthy nB) with hb1 | hb1 <;>
      rcases Bool.eq_false_or_eq_true (truthyOpt tB) with hb2 | hb2 <;>
      by_cases hb3 : 0 < exB.length <;>
      simp [hb1, hb2, hb3] at h ⊢
  · intro h1 h2 h3 h4
    rw [calculateProgressA_shares]
    simp [h1, h2, h3, h4]
    norm_num
  · intro h1 h2 h3
    rw [calculateProgressB_shares]
    simp [h1, h2, h3]
    norm_num
  · intro h1 h2 h3
    subst h3
    rw [calculateProgressA_shares]
    simp [h1, h2, CreateWorkoutA.hasLoggedSet]
  · intro h1 h2 h3
    subst h3
    rw [calculateProgressB_shares]
    simp [h1, h2]

/-- C8 amended-claim witness: all three conditions of the three-condition
variant satisfied scores exactly 1. -/
theorem calculateProgress_props_w :
    CreateWorkoutB.calculateProgress "n" (some "push") [⟨[]⟩] = 1 :=
  (calculateProgress_props "n" none [] "n" (some "push")
      [⟨[]⟩]).2.2.2.2.2.2.1 (by decide) (by decide) (by decide)
